import Mathlib

/-!
Verification model of the autonomous-developer pipeline in
`src/automation/autonomous_developer.py`.

The development is a shallow embedding of the pure decision logic of that
module: JSON documents are modelled as an inductive `JsonVal` (objects are
association lists in insertion order, as Python dicts are), the Python
`json.loads` / `json.dumps(_, indent=2)` calls are modelled by an executable
recursive-descent parser (`jsonParse`) and printer (`dumps`) over that type,
and each method under verification (`deep_merge`, `_apply_changes`,
`_apply_modification_smart`, `_run_tests`, `_select_priority_issue`,
`_create_issue_from_backlog`, the response-text preprocessing shared by
`_generate_solution` and `_create_issue_from_backlog`, and the
cleanup-relevant control flow of `run_development_cycle`) is translated into a
Lean function over explicit inputs.  External effects are made explicit
parameters: the generative oracle becomes an `Option String` argument (`none`
models the API call raising), subprocess test runs become a `TestRunOutcome`
value, and the working tree becomes an association list from paths to file
contents.

Deliberate, claim-irrelevant simplifications of the Python standard library
(each noted at its definition): JSON numerics are restricted to integers
(a fractional or exponent part makes `jsonParse` fail; no exercised input
uses one), JSON string escapes cover the common cases but not `\uXXXX`,
`\b`, `\f`, and Python's `str.strip`/`str.lower` are modelled on ASCII.
-/

/-- JSON-like structured values, the shape handled by Python's `json` module
as used by the source.  Objects are association lists in insertion order,
mirroring Python dict semantics; numbers are restricted to integers (no
input exercised by the claims uses a float). -/
inductive JsonVal where
  | null
  | bool (b : Bool)
  | num (n : Int)
  | str (s : String)
  | arr (items : List JsonVal)
  | obj (fields : List (String × JsonVal))

/-- Python dict read `d[k]` / `d.get(k)`: the value at the first occurrence
of `k` (a parsed Python dict never holds duplicate keys). -/
def lookupKey : List (String × JsonVal) → String → Option JsonVal
  | [], _ => none
  | (k1, v1) :: rest, k => if k1 = k then some v1 else lookupKey rest k

/-- Python dict write `d[k] = v`: replaces the value at an existing key in
place (keeping its position) and appends a new key at the end, exactly the
insertion-order behaviour of Python dicts. -/
def setKey : List (String × JsonVal) → String → JsonVal → List (String × JsonVal)
  | [], k, v => [(k, v)]
  | (k1, v1) :: rest, k, v =>
      if k1 = k then (k1, v) :: rest else (k1, v1) :: setKey rest k v

mutual

/-- The nested helper `deep_merge(base, updates)` defined inside
`_apply_modification_smart` (autonomous_developer.py lines 52-61): for each
`key, value` in `updates`, if both sides hold a dict at `key` recurse,
otherwise `base[key] = value`.  The Python version mutates `base` and
returns it; value-wise that is this fold over the overlay. -/
def deep_merge : List (String × JsonVal) → List (String × JsonVal) → List (String × JsonVal)
  | base, [] => base
  | base, (k, v) :: rest =>
      deep_merge (setKey base k (mergeVal (lookupKey base k) v)) rest
termination_by _ u => sizeOf u

/-- The per-key decision of `deep_merge` (lines 55-58): recurse when the
existing entry and the overlay value are both dicts, otherwise the overlay
value wins. -/
def mergeVal : Option JsonVal → JsonVal → JsonVal
  | some (JsonVal.obj bf), JsonVal.obj uf => JsonVal.obj (deep_merge bf uf)
  | _, v => v
termination_by _ v => sizeOf v

end

/-- Whether `deep_merge` recurses at a key: true exactly when the existing
entry is present and both it and the overlay value are dicts (the
`isinstance(base[key], dict) and isinstance(value, dict)` test on line 55). -/
def mergesRecursively : Option JsonVal → JsonVal → Bool
  | some (JsonVal.obj _), JsonVal.obj _ => true
  | _, _ => false

/-- JSON whitespace, also the ASCII core of the characters Python's
`str.strip()` removes. -/
def isJsonWs (c : Char) : Bool := c = ' ' || c = '\t' || c = '\n' || c = '\r'

/-- Drop leading JSON whitespace. -/
def skipJsonWs : List Char → List Char
  | [] => []
  | c :: cs => if isJsonWs c then skipJsonWs cs else c :: cs

/-- Python `str.strip()` (ASCII whitespace). -/
def pyStrip (s : String) : String :=
  String.mk (((s.data.dropWhile isJsonWs).reverse.dropWhile isJsonWs).reverse)

/-- Python `str.lower()` (ASCII case folding, which covers every label
constant the source compares against). -/
def pyLower (s : String) : String := String.mk (s.data.map Char.toLower)

/-- The opening-brace character, written by code point. -/
def obraceChar : Char := Char.ofNat 123

/-- The closing-brace character, written by code point. -/
def cbraceChar : Char := Char.ofNat 125

/-- JSON string-literal body parser: consumes characters after the opening
quote up to and including the closing quote, decoding the common escapes
(`\uXXXX`, `\b`, `\f` are unmodelled and make the parse fail; no exercised
input uses them). -/
def parseStringChars : List Char → Option (List Char × List Char)
  | [] => none
  | c :: cs =>
    if c = '"' then some ([], cs)
    else if c = '\\' then
      match cs with
      | [] => none
      | e :: cs2 =>
        let dec : Option Char :=
          if e = '"' then some '"'
          else if e = '\\' then some '\\'
          else if e = '/' then some '/'
          else if e = 'n' then some '\n'
          else if e = 't' then some '\t'
          else if e = 'r' then some '\r'
          else none
        match dec with
        | none => none
        | some d =>
          match parseStringChars cs2 with
          | none => none
          | some (content, rest) => some (d :: content, rest)
    else
      match parseStringChars cs with
      | none => none
      | some (content, rest) => some (c :: content, rest)

/-- Parse a nonempty run of decimal digits into a natural number. -/
def parseIntDigits (cs : List Char) : Option (Nat × List Char) :=
  let ds := cs.takeWhile Char.isDigit
  if ds.isEmpty then none
  else some (ds.foldl (fun a c => a * 10 + (c.toNat - 48)) 0, cs.drop ds.length)

/-- Whether the rest of the input starts a fractional or exponent part
(unmodelled numerics; makes the parse fail rather than misparse). -/
def startsFloat : List Char → Bool
  | [] => false
  | c :: _ => c = '.' || c = 'e' || c = 'E'

/-- Fuel-indexed recursive-descent JSON parser modelling `json.loads`.
`mode` 0 parses a value, 1/2 parse object members (first / subsequent),
3/4 parse array items (first / subsequent); `accF`/`accI` accumulate object
fields (via `setKey`, so a duplicate key keeps its first position with the
last value, as Python does) and array items.  Every recursive call consumes
at least one input character first, so fuel `length + 8` never runs out. -/
def parseJ : Nat → Nat → List (String × JsonVal) → List JsonVal → List Char →
    Option (JsonVal × List Char)
  | 0, _, _, _, _ => none
  | Nat.succ fuel, mode, accF, accI, cs =>
    if mode = 0 then
      match skipJsonWs cs with
      | [] => none
      | c :: rest =>
        if c = obraceChar then parseJ fuel 1 [] [] rest
        else if c = '[' then parseJ fuel 3 [] [] rest
        else if c = '"' then
          match parseStringChars rest with
          | some (content, r) => some (JsonVal.str (String.mk content), r)
          | none => none
        else if c = '-' then
          match parseIntDigits rest with
          | some (n, r) => if startsFloat r then none else some (JsonVal.num (-(n : Int)), r)
          | none => none
        else if c.isDigit then
          match parseIntDigits (c :: rest) with
          | some (n, r) => if startsFloat r then none else some (JsonVal.num (n : Int), r)
          | none => none
        else if (c :: rest).take 4 = "true".data then some (JsonVal.bool true, (c :: rest).drop 4)
        else if (c :: rest).take 5 = "false".data then some (JsonVal.bool false, (c :: rest).drop 5)
        else if (c :: rest).take 4 = "null".data then some (JsonVal.null, (c :: rest).drop 4)
        else none
    else if mode = 1 then
      match skipJsonWs cs with
      | [] => none
      | c :: rest =>
        if c = cbraceChar then some (JsonVal.obj accF, rest)
        else if c = '"' then
          match parseStringChars rest with
          | none => none
          | some (key, r1) =>
            match skipJsonWs r1 with
            | ':' :: r2 =>
              match parseJ fuel 0 [] [] r2 with
              | none => none
              | some (v, r3) => parseJ fuel 2 (setKey accF (String.mk key) v) [] r3
            | _ => none
        else none
    else if mode = 2 then
      match skipJsonWs cs with
      | [] => none
      | c :: rest =>
        if c = cbraceChar then some (JsonVal.obj accF, rest)
        else if c = ',' then
          match skipJsonWs rest with
          | '"' :: r1 =>
            match parseStringChars r1 with
            | none => none
            | some (key, r2) =>
              match skipJsonWs r2 with
              | ':' :: r3 =>
                match parseJ fuel 0 [] [] r3 with
                | none => none
                | some (v, r4) => parseJ fuel 2 (setKey accF (String.mk key) v) [] r4
              | _ => none
          | _ => none
        else none
    else if mode = 3 then
      match skipJsonWs cs with
      | [] => none
      | c :: rest =>
        if c = ']' then some (JsonVal.arr accI.reverse, rest)
        else
          match parseJ fuel 0 [] [] (c :: rest) with
          | none => none
          | some (v, r) => parseJ fuel 4 [] (v :: accI) r
    else if mode = 4 then
      match skipJsonWs cs with
      | [] => none
      | c :: rest =>
        if c = ']' then some (JsonVal.arr accI.reverse, rest)
        else if c = ',' then
          match parseJ fuel 0 [] [] rest with
          | none => none
          | some (v, r) => parseJ fuel 4 [] (v :: accI) r
        else none
    else none

/-- `json.loads`: parse one JSON value and require only whitespace after it
(Python raises `JSONDecodeError` on trailing data, modelled as `none`). -/
def jsonParse (s : String) : Option JsonVal :=
  match parseJ (s.length + 8) 0 [] [] s.data with
  | some (v, rest) => if (skipJsonWs rest).isEmpty then some v else none
  | none => none

/-- The triple-backtick fence marker checked by
`response_text.startswith("three backticks")`. -/
def fenceMark : String := "```"

/-- The fence marker with the optional `json` tag. -/
def fenceMarkJson : String := "```json"

/-- Whether one character list is a prefix of another. -/
def listStartsWith (p cs : List Char) : Bool := p.isPrefixOf cs

/-- The markdown-code-fence stripping applied to oracle replies before
`json.loads` (autonomous_developer.py lines 309-311 and 821-823): when the
stripped reply starts with three backticks, remove `re.sub`'s
`^```(?:json)?\n?` match at the start and `\n?```$` match at the end. -/
def stripFences (s : String) : String :=
  if listStartsWith fenceMark.data s.data then
    let afterLead :=
      if listStartsWith fenceMarkJson.data s.data then s.data.drop 7 else s.data.drop 3
    let afterLead2 :=
      match afterLead with
      | '\n' :: t => t
      | t => t
    let afterTrail :=
      if fenceMark.data.isSuffixOf afterLead2 then
        let t := afterLead2.take (afterLead2.length - 3)
        if ('\n' :: []).isSuffixOf t then t.take (t.length - 1) else t
      else afterLead2
    String.mk afterTrail
  else s

/-- The structured-response preprocessing-and-decode step shared by
`_generate_solution` (lines 818-837) and `_create_issue_from_backlog`
(lines 305-313): strip the reply, strip code fences if present, and
`json.loads` the remaining text in full.  `none` models the
`json.JSONDecodeError` path (status `error` / issue-creation `None`). -/
def structured_response_parse (raw : String) : Option JsonVal :=
  jsonParse (stripFences (pyStrip raw))

/-- Modelled from the spec: the broad first-`brace`-through-last-`brace`
extraction that section 4.1 of the spec describes for unfenced replies
("take the first opening brace through the last closing brace and decode
that substring").  This definition follows the spec's words, not the code,
and exists only to compare the two. -/
def specBroadBraceSlice (s : String) : Option String :=
  let cs := s.data
  match cs.findIdx? (fun c => c == obraceChar),
      (cs.reverse.findIdx? (fun c => c == cbraceChar)).map (fun k => cs.length - 1 - k) with
  | some a, some b =>
      if a ≤ b then some (String.mk ((cs.drop a).take (b + 1 - a))) else none
  | _, _ => none

/-- Python truthiness of `task_data.get(key)` as used by
`not task_data.get('title')`: `None`, `False`, `0`, empty string, empty
list and empty dict are falsy. -/
def pyTruthy : Option JsonVal → Bool
  | none => false
  | some JsonVal.null => false
  | some (JsonVal.bool b) => b
  | some (JsonVal.num n) => !(n == 0)
  | some (JsonVal.str s) => !s.data.isEmpty
  | some (JsonVal.arr l) => !l.isEmpty
  | some (JsonVal.obj l) => !l.isEmpty

/-- Python `d.get(k) == lit` for a string literal `lit`: true exactly when
the key is present and holds that string. -/
def isStrVal (v : Option JsonVal) (lit : String) : Bool :=
  match v with
  | some (JsonVal.str t) => t = lit
  | _ => false

/-- The issue synthesizer `_create_issue_from_backlog` (lines 242-368),
reduced to its decision on the oracle reply: the argument is the oracle's
reply text (`none` models the API call raising, caught by the
`except Exception` handler), and the result is `some fields` when an issue
would be created from the parsed task object, `none` when creation is
suppressed.  Non-object JSON values make `task_data.get` raise
`AttributeError`, caught by the same handler.  Backlog loading, label
normalization and the GitHub calls are external effects outside the
decision and are not modelled. -/
def create_issue_from_backlog (oracleReply : Option String) :
    Option (List (String × JsonVal)) :=
  match oracleReply with
  | none => none
  | some text =>
    match structured_response_parse text with
    | none => none
    | some (JsonVal.obj fields) =>
      if isStrVal (lookupKey fields "status") "no_suitable_task" then none
      else if !(pyTruthy (lookupKey fields "title")) then none
      else if !(pyTruthy (lookupKey fields "body")) then none
      else if isStrVal (lookupKey fields "confidence") "low" then none
      else if isStrVal (lookupKey fields "estimated_complexity") "complex" then none
      else some fields
    | some _ => none

/-- JSON string escaping for `json.dumps` output (the common cases; the
exercised inputs contain no character needing `\uXXXX`, `\b` or `\f`). -/
def escapeJsonChar (c : Char) : List Char :=
  if c = '"' then ['\\', '"']
  else if c = '\\' then ['\\', '\\']
  else if c = '\n' then ['\\', 'n']
  else if c = '\t' then ['\\', 't']
  else if c = '\r' then ['\\', 'r']
  else [c]

/-- Escape a whole string for JSON output. -/
def escapeJson (s : String) : String :=
  String.mk (s.data.foldr (fun c acc => escapeJsonChar c ++ acc) [])

/-- A run of `n` spaces. -/
def spacesStr (n : Nat) : String := String.mk (List.replicate n ' ')

/-- Fuel-indexed body of `dumps`; fuel bounds the nesting depth, and
`sizeOf` of the value always dominates it. -/
def dumpsF : Nat → JsonVal → Nat → String
  | 0, _, _ => ""
  | Nat.succ fuel, v, lvl =>
    match v with
    | JsonVal.null => "null"
    | JsonVal.bool true => "true"
    | JsonVal.bool false => "false"
    | JsonVal.num n => toString n
    | JsonVal.str s => "\"" ++ escapeJson s ++ "\""
    | JsonVal.arr [] => "[]"
    | JsonVal.arr items =>
        "[\n" ++
        String.intercalate ",\n"
          (items.map (fun x => spacesStr (lvl + 2) ++ dumpsF fuel x (lvl + 2))) ++
        "\n" ++ spacesStr lvl ++ "]"
    | JsonVal.obj [] => "\x7b\x7d"
    | JsonVal.obj fields =>
        "\x7b\n" ++
        String.intercalate ",\n"
          (fields.map (fun p =>
            spacesStr (lvl + 2) ++ "\"" ++ escapeJson p.1 ++ "\": " ++
              dumpsF fuel p.2 (lvl + 2))) ++
        "\n" ++ spacesStr lvl ++ "\x7d"

/-- `json.dumps(v, indent=2)` as called on line 64 of the source.  The
fuel argument must exceed the value's nesting depth; callers pass a bound
derived from the length of the source text the value was parsed from (each
nesting level of a parsed value consumes at least one source character). -/
def dumps (fuel : Nat) (v : JsonVal) : String := dumpsF fuel v 0

/-- A working tree modelled as an association list from repo-relative paths
to file contents. -/
abbrev FS := List (String × String)

/-- Read a file; `none` models `Path.exists()` being false. -/
def fsRead : FS → String → Option String
  | [], _ => none
  | (p, c) :: rest, q => if p = q then some c else fsRead rest q

/-- `Path.write_text`: overwrite an existing file or create a new one. -/
def fsWrite : FS → String → String → FS
  | [], p, c => [(p, c)]
  | (p1, c1) :: rest, p, c =>
      if p1 = p then (p1, c) :: rest else (p1, c1) :: fsWrite rest p c

/-- `Path.unlink`: remove the file at a path. -/
def fsDelete : FS → String → FS
  | [], _ => []
  | (p1, c1) :: rest, p => if p1 = p then rest else (p1, c1) :: fsDelete rest p

/-- One generated `ChangeOp` as consumed by `_apply_changes`: a dict with
`file`, `action` and `content` entries. -/
structure Change where
  file : String
  action : String
  content : String

/-- One iteration of the loop in `_apply_changes` (lines 885-906):
`create` writes the full content; `modify` overwrites the full content only
when the target exists (otherwise it warns and skips); `delete` removes an
existing file; any other action is ignored by the if/elif chain. -/
def applyOneChange (fs : FS) (c : Change) : FS :=
  if c.action = "create" then fsWrite fs c.file c.content
  else if c.action = "modify" then
    if (fsRead fs c.file).isSome then fsWrite fs c.file c.content else fs
  else if c.action = "delete" then
    if (fsRead fs c.file).isSome then fsDelete fs c.file else fs
  else fs

/-- `_apply_changes` (lines 880-912): fold the change list over the working
tree.  Note that its `modify` branch writes `change['content']` verbatim
("For now, replace entire file") and never calls
`_apply_modification_smart`. -/
def apply_changes (fs : FS) (changes : List Change) : FS :=
  changes.foldl applyOneChange fs

/-- The recognized config-file list of `_apply_modification_smart`
(line 25). -/
def config_files : List String :=
  ["package.json", "tsconfig.json", "vite.config.ts", "vitest.config.ts"]

/-- The component after the last slash of a path (Python `Path.name`). -/
def lastPathComponent : List Char → List Char → List Char
  | [], acc => acc.reverse
  | c :: rest, acc =>
      if c = '/' then lastPathComponent rest [] else lastPathComponent rest (c :: acc)

/-- `Path(p).name`. -/
def fileName (p : String) : String := String.mk (lastPathComponent p.data [])

/-- `_apply_modification_smart` (lines 16-84), the config-aware modify
path: for a recognized `.json` config file, parse the existing file and the
change content and write the `deep_merge` result re-serialized with
`json.dumps(_, indent=2)` plus a newline; fall back to writing the raw
content on a missing target, an unparseable overlay
(`json.JSONDecodeError`), an unparseable existing file or a non-dict value
(both raise out of the inner `try` into the outer `except`, whose recovery
is full replacement); recognized `.ts` configs and all other files get full
replacement.  This method exists in the source but `_apply_changes` never
invokes it. -/
def apply_modification_smart (fs : FS) (c : Change) : FS :=
  let name := fileName c.file
  let is_config := config_files.contains name
  if is_config && ".json".data.isSuffixOf name.data then
    match fsRead fs c.file with
    | none => fsWrite fs c.file c.content
    | some existing =>
      match jsonParse existing with
      | none => fsWrite fs c.file c.content
      | some existingVal =>
        match jsonParse c.content with
        | none => fsWrite fs c.file c.content
        | some overlayVal =>
          match existingVal, overlayVal with
          | JsonVal.obj ef, JsonVal.obj uf =>
              fsWrite fs c.file
                (dumps (existing.length + c.content.length + 8)
                  (JsonVal.obj (deep_merge ef uf)) ++ "\n")
          | _, _ => fsWrite fs c.file c.content
  else fsWrite fs c.file c.content

/-- The outcomes of the stages of `run_development_cycle` that run after the
full-clone working tree exists (lines 157-236).  `_generate_solution`,
`_apply_changes`, `_run_tests` and `_format_code` wrap their own bodies in
`try/except` and so report failure through their return values, while
`_commit_and_push`, `_create_pull_request` and `_update_project_docs` can
raise (checked subprocess calls, GitHub API calls, file writes), in which
case the surrounding `except Exception` handler on line 228 builds the
error result. -/
structure StageOutcomes where
  generation_ok : Bool
  apply_ok : Bool
  tests_passed : Bool
  commit_push_raises : Bool
  create_pr_raises : Bool
  update_docs_raises : Bool

/-- The structured result statuses of the cycle paths modelled here. -/
inductive CycleStatus where
  | generation_failed
  | changes_failed
  | tests_failed
  | error
  | pr_created
deriving DecidableEq

/-- The control flow of `run_development_cycle` from the point where the
full-clone working tree has been created (line 154) to the cycle's return:
the returned status, paired with whether `shutil.rmtree(repo_path)` ran
before returning.  The explicit failure branches (lines 168-196) and the
success path (line 217) each remove the tree; the `except Exception`
handler (lines 228-236) returns the error result without removing it. -/
def run_development_cycle_from_workspace (st : StageOutcomes) : CycleStatus × Bool :=
  if !st.generation_ok then (CycleStatus.generation_failed, true)
  else if !st.apply_ok then (CycleStatus.changes_failed, true)
  else if !st.tests_passed then (CycleStatus.tests_failed, true)
  else if st.commit_push_raises then (CycleStatus.error, false)
  else if st.create_pr_raises then (CycleStatus.error, false)
  else if st.update_docs_raises then (CycleStatus.error, false)
  else (CycleStatus.pr_created, true)

/-- How the test subprocess of `_run_tests` ended: a completed process with
an exit status and captured streams, a `subprocess.TimeoutExpired`, or any
other exception (for example a failure to launch the command at all). -/
inductive TestRunOutcome where
  | completed (returncode : Int) (stdout : String) (stderr : String)
  | timedOut
  | errored (message : String)

/-- `_run_tests` (lines 914-953) reduced to its result dict
`(passed, output)`: `passed` is `returncode == 0` for a completed run,
`False` on timeout, and `True` on any other exception (the
"Test error (assuming pass)" branch on line 953). -/
def run_tests (outcome : TestRunOutcome) : Bool × String :=
  match outcome with
  | TestRunOutcome.completed rc out err => (rc == 0, out ++ err)
  | TestRunOutcome.timedOut => (false, "Tests timed out")
  | TestRunOutcome.errored e => (true, "Test error (assuming pass): " ++ e)

/-- Modelled from the claim's words: whether the outcome is a completed
test process with exit status zero (the condition the claim says is
equivalent to `passed`). -/
def specZeroExit : TestRunOutcome → Bool
  | TestRunOutcome.completed rc _ _ => rc == 0
  | _ => false

/-- Whether the outcome is a non-timeout exception while running tests. -/
def specNonTimeoutError : TestRunOutcome → Bool
  | TestRunOutcome.errored _ => true
  | _ => false

/-- A work item as consumed by `_select_priority_issue`: its number and the
names of its labels.  Title and body only feed the oracle prompt text and
play no role in the selection control flow, so they are omitted. -/
structure Issue where
  number : Nat
  labels : List String
deriving DecidableEq

/-- The label-based score of lines 620-630: sequential independent
increments over the lowercased label names. -/
def priorityScore (labelNames : List String) : Nat :=
  let labels := labelNames.map pyLower
  let s1 := if labels.contains "3am-ready" || labels.contains "autonomous-ready"
            then 0 + 100 else 0
  let s2 := if labels.contains "autonomous-created" then s1 + 90 else s1
  let s3 := if labels.contains "roadmap" || labels.contains "backlog" then s2 + 50 else s2
  let s4 := if labels.contains "quick-win" || labels.contains "good first issue"
            then s3 + 25 else s3
  if labels.contains "bug" then s4 + 10 else s4

/-- The blocking labels of line 616. -/
def blocked_labels : List String := ["wontfix", "invalid", "duplicate", "blocked"]

/-- Lines 611-632: consider only the first 15 issues, drop any whose
lowercased labels meet the blocked set, and pair each survivor with its
score. -/
def suitableIssues (issues : List Issue) : List (Nat × Issue) :=
  (issues.take 15).filterMap (fun issue =>
    let labels := issue.labels.map pyLower
    if blocked_labels.any (fun x => labels.contains x) then none
    else some (priorityScore issue.labels, issue))

/-- Insert into a descending-by-score list, after existing entries of equal
score: this is the stable descending order that Python's
`list.sort(reverse=True, key=score)` produces. -/
def insertDesc (p : Nat × Issue) : List (Nat × Issue) → List (Nat × Issue)
  | [] => [p]
  | q :: rest => if q.1 ≤ p.1 then p :: q :: rest else q :: insertDesc p rest

/-- Stable descending sort by score (line 638). -/
def sortByScoreDesc (l : List (Nat × Issue)) : List (Nat × Issue) :=
  l.foldr insertDesc []

/-- The shortlist `top_issues` of line 639: the five best-scored suitable
issues, in stable descending score order. -/
def shortlist (issues : List Issue) : List Issue :=
  ((sortByScoreDesc (suitableIssues issues)).take 5).map Prod.snd

/-- Whether an issue carries the `autonomous-created` label, matched on
lowercased names (lines 643-644). -/
def isAutonomousCreatedB (i : Issue) : Bool :=
  (i.labels.map pyLower).contains "autonomous-created"

/-- The first maximal run of digits in the text, `re.search
of one-or-more digits`. -/
def firstDigitRun : List Char → Option (List Char)
  | [] => none
  | c :: rest =>
      if c.isDigit then some (c :: rest.takeWhile Char.isDigit)
      else firstDigitRun rest

/-- `int(re.search(digits, response).group())` (line 679): the first digit
run as a number, `none` when the reply has no digit (the `.group()` call on
`None` then raises `AttributeError`, caught by the `except` on line 688). -/
def firstIntToken (s : String) : Option Nat :=
  (firstDigitRun s.data).map
    (fun ds => ds.foldl (fun a c => a * 10 + (c.toNat - 48)) 0)

/-- `_select_priority_issue` (lines 602-690).  The oracle reply is an
explicit argument: `none` models the Anthropic API call raising (caught by
the `except` on line 688, which returns `top_issues[0] if top_issues else
None`).  With a reply, the first integer in the stripped text is matched
against the shortlist's issue numbers, any miss falling back to
`top_issues[0]`.  The `autonomous-created` scan over the shortlist
(lines 641-645) precedes any oracle use. -/
def select_priority_issue (oracleReply : Option String) (issues : List Issue) :
    Option Issue :=
  let suitable := suitableIssues issues
  if suitable.isEmpty then none
  else
    let top_issues := shortlist issues
    match top_issues.find? isAutonomousCreatedB with
    | some issue => some issue
    | none =>
      match oracleReply with
      | none => top_issues.head?
      | some resp =>
        match firstIntToken (pyStrip resp) with
        | none => top_issues.head?
        | some n =>
          match top_issues.find? (fun i => i.number == n) with
          | some issue => some issue
          | none => top_issues.head?

/-- The existing `package.json` used to exercise the modify path of the
Change Applicator. -/
def c1_fs : FS :=
  [("package.json", "\x7b\"name\": \"app\", \"version\": \"1.0.0\"\x7d")]

/-- A partial-overlay modify ChangeOp for `package.json`, of the shape the
generation prompt requests for config files. -/
def c1_change : Change :=
  { file := "package.json", action := "modify",
    content := "\x7b\"scripts\": \x7b\"test\": \"vitest\"\x7d\x7d" }

/-- A 16-item open-issue list whose 16th item is the only one carrying a
scoring label. -/
def ex16 : List Issue :=
  [⟨1, []⟩, ⟨2, []⟩, ⟨3, []⟩, ⟨4, []⟩, ⟨5, []⟩, ⟨6, []⟩, ⟨7, []⟩, ⟨8, []⟩,
   ⟨9, []⟩, ⟨10, []⟩, ⟨11, []⟩, ⟨12, []⟩, ⟨13, []⟩, ⟨14, []⟩, ⟨15, []⟩,
   ⟨16, ["3am-ready"]⟩]

/-- A nested existing document for exercising the merge invariants. -/
def w5_base : List (String × JsonVal) :=
  [("a", JsonVal.num 1), ("s", JsonVal.obj [("x", JsonVal.num 1)])]

/-- An overlay that recurses on `s`, adds `n`, and omits `a`. -/
def w5_overlay : List (String × JsonVal) :=
  [("s", JsonVal.obj [("y", JsonVal.num 2)]), ("n", JsonVal.num 3)]

/-! ## Unfolding lemmas for the well-founded recursive definitions -/

/-- `deep_merge` with an empty overlay returns the base unchanged. -/
theorem deep_merge_nil (b : List (String × JsonVal)) : deep_merge b [] = b := by
  rw [deep_merge.eq_def]

/-- One step of `deep_merge` over the overlay. -/
theorem deep_merge_cons (b : List (String × JsonVal)) (k : String) (v : JsonVal)
    (rest : List (String × JsonVal)) :
    deep_merge b ((k, v) :: rest) =
      deep_merge (setKey b k (mergeVal (lookupKey b k) v)) rest := by
  rw [deep_merge.eq_def]

/-- `mergeVal` recurses when both sides hold a dict. -/
theorem mergeVal_obj_obj (bf uf : List (String × JsonVal)) :
    mergeVal (some (JsonVal.obj bf)) (JsonVal.obj uf) = JsonVal.obj (deep_merge bf uf) := by
  rw [mergeVal.eq_def]

/-- `mergeVal` is the overlay value whenever the recursion guard fails. -/
theorem mergeVal_not_rec (o : Option JsonVal) (v : JsonVal)
    (h : mergesRecursively o v = false) : mergeVal o v = v := by
  rw [mergeVal.eq_def]
  cases o with
  | none => cases v <;> rfl
  | some w =>
    cases w <;> cases v <;> first
      | rfl
      | (exact absurd h (by simp [mergesRecursively]))

/-! ## Association-list lemmas -/

/-- Reading back the key just written. -/
theorem lookupKey_setKey_self (l : List (String × JsonVal)) (k : String) (v : JsonVal) :
    lookupKey (setKey l k v) k = some v := by
  induction l with
  | nil => simp [setKey, lookupKey]
  | cons p rest ih =>
    obtain ⟨k1, v1⟩ := p
    by_cases h : k1 = k
    · simp [setKey, h, lookupKey]
    · simp [setKey, h, lookupKey, ih]

/-- Writing one key leaves every other key's value unchanged. -/
theorem lookupKey_setKey_other (l : List (String × JsonVal)) (k2 k : String) (v : JsonVal)
    (h : k2 ≠ k) : lookupKey (setKey l k2 v) k = lookupKey l k := by
  induction l with
  | nil => simp [setKey, lookupKey, h]
  | cons p rest ih =>
    obtain ⟨k1, v1⟩ := p
    by_cases e : k1 = k2
    · subst e
      have h1 : ¬ (k1 = k) := h
      simp [setKey, lookupKey, h1]
    · simp only [setKey, if_neg e, lookupKey]
      by_cases f : k1 = k
      · simp [f]
      · simp [f, ih]

/-- A key absent from the list looks up to `none`. -/
theorem lookupKey_eq_none (l : List (String × JsonVal)) (k : String)
    (h : k ∉ l.map Prod.fst) : lookupKey l k = none := by
  induction l with
  | nil => rfl
  | cons p rest ih =>
    obtain ⟨k1, v1⟩ := p
    simp only [List.map_cons, List.mem_cons, not_or] at h
    have h1 : ¬ (k1 = k) := fun e => h.1 e.symm
    simp only [lookupKey, if_neg h1]
    exact ih h.2

/-! ## Merge-invariant lemmas -/

/-- Keys not present in the overlay keep their base value. -/
theorem deep_merge_lookup_miss : ∀ (overlay base : List (String × JsonVal)) (k : String),
    lookupKey overlay k = none →
    lookupKey (deep_merge base overlay) k = lookupKey base k := by
  intro overlay
  induction overlay with
  | nil => intro base k _; rw [deep_merge_nil]
  | cons p rest ih =>
    intro base k h
    obtain ⟨k1, v1⟩ := p
    by_cases e : k1 = k
    · exact absurd h (by simp [lookupKey, e])
    · have h2 : lookupKey rest k = none := by simpa [lookupKey, e] using h
      rw [deep_merge_cons, ih _ _ h2, lookupKey_setKey_other _ _ _ _ e]

/-- When both sides hold a dict at a key, the merge holds the recursive
merge of the two dicts there. -/
theorem deep_merge_lookup_both_obj : ∀ (overlay base : List (String × JsonVal))
    (k : String) (bf uf : List (String × JsonVal)),
    (overlay.map Prod.fst).Nodup →
    lookupKey base k = some (JsonVal.obj bf) →
    lookupKey overlay k = some (JsonVal.obj uf) →
    lookupKey (deep_merge base overlay) k = some (JsonVal.obj (deep_merge bf uf)) := by
  intro overlay
  induction overlay with
  | nil => intro base k bf uf _ _ ho; exact absurd ho (by simp [lookupKey])
  | cons p rest ih =>
    intro base k bf uf hnd hb ho
    obtain ⟨k1, v1⟩ := p
    simp only [List.map_cons, List.nodup_cons] at hnd
    by_cases e : k1 = k
    · subst e
      have hv1 : v1 = JsonVal.obj uf := by simpa [lookupKey] using ho
      subst hv1
      have hnone : lookupKey rest k1 = none := lookupKey_eq_none _ _ hnd.1
      rw [deep_merge_cons, deep_merge_lookup_miss _ _ _ hnone, lookupKey_setKey_self,
        hb, mergeVal_obj_obj]
    · have ho2 : lookupKey rest k = some (JsonVal.obj uf) := by simpa [lookupKey, e] using ho
      have hb2 : lookupKey (setKey base k1 (mergeVal (lookupKey base k1) v1)) k =
          some (JsonVal.obj bf) := by
        rw [lookupKey_setKey_other _ _ _ _ e]; exact hb
      rw [deep_merge_cons]
      exact ih _ _ _ _ hnd.2 hb2 ho2

/-- At any overlay key where the recursion guard fails, the overlay value
wins wholesale. -/
theorem deep_merge_lookup_overlay_wins : ∀ (overlay base : List (String × JsonVal))
    (k : String) (v : JsonVal),
    (overlay.map Prod.fst).Nodup →
    lookupKey overlay k = some v →
    mergesRecursively (lookupKey base k) v = false →
    lookupKey (deep_merge base overlay) k = some v := by
  intro overlay
  induction overlay with
  | nil => intro base k v _ ho _; exact absurd ho (by simp [lookupKey])
  | cons p rest ih =>
    intro base k v hnd ho hm
    obtain ⟨k1, v1⟩ := p
    simp only [List.map_cons, List.nodup_cons] at hnd
    by_cases e : k1 = k
    · subst e
      have hv1 : v1 = v := by simpa [lookupKey] using ho
      subst hv1
      have hnone : lookupKey rest k1 = none := lookupKey_eq_none _ _ hnd.1
      rw [deep_merge_cons, deep_merge_lookup_miss _ _ _ hnone, lookupKey_setKey_self,
        mergeVal_not_rec _ _ hm]
    · have ho2 : lookupKey rest k = some v := by simpa [lookupKey, e] using ho
      have hm2 : mergesRecursively
          (lookupKey (setKey base k1 (mergeVal (lookupKey base k1) v1)) k) v = false := by
        rw [lookupKey_setKey_other _ _ _ _ e]; exact hm
      rw [deep_merge_cons]
      exact ih _ _ _ hnd.2 ho2 hm2

/-! ## Selection helper lemmas -/

/-- Membership through `insertDesc`. -/
theorem mem_insertDesc (p q : Nat × Issue) (l : List (Nat × Issue)) :
    q ∈ insertDesc p l ↔ q = p ∨ q ∈ l := by
  induction l with
  | nil => simp [insertDesc]
  | cons a rest ih =>
    by_cases h : a.1 ≤ p.1
    · simp [insertDesc, h, List.mem_cons]
    · simp [insertDesc, h, List.mem_cons, ih]
      tauto

/-- The stable sort is a permutation membership-wise. -/
theorem mem_sortByScoreDesc (q : Nat × Issue) (l : List (Nat × Issue)) :
    q ∈ sortByScoreDesc l ↔ q ∈ l := by
  induction l with
  | nil => simp [sortByScoreDesc]
  | cons a rest ih =>
    show q ∈ insertDesc a (sortByScoreDesc rest) ↔ _
    rw [mem_insertDesc, ih]
    exact (List.mem_cons).symm

/-- The head of a list is a member. -/
theorem mem_of_head?_eq_some {l : List Issue} {a : Issue} (h : l.head? = some a) :
    a ∈ l := by
  cases l with
  | nil => exact Option.noConfusion h
  | cons b t =>
    have hb : b = a := Option.some.inj h
    subst hb
    exact List.mem_cons_self _ _

/-- Every shortlisted issue comes from the first fifteen input issues. -/
theorem shortlist_subset {issues : List Issue} {i : Issue} (h : i ∈ shortlist issues) :
    i ∈ issues.take 15 := by
  simp only [shortlist] at h
  obtain ⟨p, hp, hsnd⟩ := List.mem_map.mp h
  have hp2 : p ∈ sortByScoreDesc (suitableIssues issues) := List.take_subset _ _ hp
  have hp3 : p ∈ suitableIssues issues := (mem_sortByScoreDesc _ _).mp hp2
  simp only [suitableIssues] at hp3
  obtain ⟨a, ha, hfa⟩ := List.mem_filterMap.mp hp3
  split at hfa
  · exact Option.noConfusion hfa
  · have hpa : p = (priorityScore a.labels, a) := (Option.some.inj hfa).symm
    have hai : a = i := by rw [hpa] at hsnd; exact hsnd
    subst hai
    exact ha

/-- Any issue returned by the selector is a member of the shortlist. -/
theorem select_mem {reply : Option String} {issues : List Issue} {i : Issue}
    (h : select_priority_issue reply issues = some i) : i ∈ shortlist issues := by
  by_cases hemp : (suitableIssues issues).isEmpty
  · simp [select_priority_issue, hemp] at h
  · cases hf : (shortlist issues).find? isAutonomousCreatedB with
    | some j =>
      have hji : j = i := by
        simpa [select_priority_issue, hemp, hf] using h
      subst hji
      exact List.mem_of_find?_eq_some hf
    | none =>
      cases reply with
      | none =>
        have hh : (shortlist issues).head? = some i := by
          simpa [select_priority_issue, hemp, hf] using h
        exact mem_of_head?_eq_some hh
      | some r =>
        cases hfi : firstIntToken (pyStrip r) with
        | none =>
          have hh : (shortlist issues).head? = some i := by
            simpa [select_priority_issue, hemp, hf, hfi] using h
          exact mem_of_head?_eq_some hh
        | some n =>
          cases hfind : (shortlist issues).find? (fun j => j.number == n) with
          | some j =>
            have hji : j = i := by
              simpa [select_priority_issue, hemp, hf, hfi, hfind] using h
            subst hji
            exact List.mem_of_find?_eq_some hfind
          | none =>
            have hh : (shortlist issues).head? = some i := by
              simpa [select_priority_issue, hemp, hf, hfi, hfind] using h
            exact mem_of_head?_eq_some hh

/-- An empty suitable set forces an empty shortlist. -/
theorem shortlist_eq_nil_of_suitable_nil {issues : List Issue}
    (h : suitableIssues issues = []) : shortlist issues = [] := by
  simp [shortlist, h, sortByScoreDesc]

/-! ## Claim theorems -/

/-- C2 counterexample: a cycle whose stages all succeed up to and including
the test run, but whose commit-and-push step raises, returns the
`status=error` result with the full-clone working tree still on disk —
refuting the claim that the tree is removed on every exit path. -/
theorem run_cycle_cleanup_counterexample :
    (run_development_cycle_from_workspace
      { generation_ok := true, apply_ok := true, tests_passed := true,
        commit_push_raises := true, create_pr_raises := false,
        update_docs_raises := false }).2 = false ∧
    (run_development_cycle_from_workspace
      { generation_ok := true, apply_ok := true, tests_passed := true,
        commit_push_raises := true, create_pr_raises := false,
        update_docs_raises := false }).1 = CycleStatus.error :=
  ⟨rfl, rfl⟩

/-- C2 (amended): the working tree is removed exactly on the explicit
branches — generation failure, apply failure, test failure, and the full
success path; when commit/push, PR creation or the doc update raises, the
top-level exception handler returns without removing it. -/
theorem run_cycle_cleanup_amended (st : StageOutcomes) :
    (run_development_cycle_from_workspace st).2 =
      (!st.generation_ok || !st.apply_ok || !st.tests_passed ||
        (!st.commit_push_raises && !st.create_pr_raises && !st.update_docs_raises)) := by
  obtain ⟨g, a, t, c, p, d⟩ := st
  cases g <;> cases a <;> cases t <;> cases c <;> cases p <;> cases d <;> rfl

/-- C4 counterexample: a failure to launch the test process (any non-timeout
exception) makes `_run_tests` report `passed = true` even though no test
process exited with status zero — refuting the claim that a zero exit is
the only way to get `passed = true`. -/
theorem run_tests_passed_counterexample :
    (run_tests (TestRunOutcome.errored "[Errno 2] No such file or directory: npm")).1 = true ∧
    specZeroExit (TestRunOutcome.errored "[Errno 2] No such file or directory: npm") = false :=
  ⟨rfl, rfl⟩

/-- C4 (amended): the test stage reports `passed = true` exactly when the
test command exited with status zero or a non-timeout exception occurred
while running tests (the source explicitly assumes pass on such errors);
a timeout reports `passed = false`. -/
theorem run_tests_passed_amended (o : TestRunOutcome) :
    (run_tests o).1 = (specZeroExit o || specNonTimeoutError o) := by
  cases o <;> simp [run_tests, specZeroExit, specNonTimeoutError]

/-- C5: the deep merge preserves every key not present in the overlay,
recursively merges keys at which both documents hold mappings, takes the
overlay's value at every other overlay key, and satisfies
`merge(D, empty) = D`. -/
theorem deep_merge_spec :
    (∀ (base overlay : List (String × JsonVal)) (k : String),
        lookupKey overlay k = none →
        lookupKey (deep_merge base overlay) k = lookupKey base k) ∧
    (∀ (base overlay : List (String × JsonVal)) (k : String)
        (bf uf : List (String × JsonVal)),
        (overlay.map Prod.fst).Nodup →
        lookupKey base k = some (JsonVal.obj bf) →
        lookupKey overlay k = some (JsonVal.obj uf) →
        lookupKey (deep_merge base overlay) k = some (JsonVal.obj (deep_merge bf uf))) ∧
    (∀ (base overlay : List (String × JsonVal)) (k : String) (v : JsonVal),
        (overlay.map Prod.fst).Nodup →
        lookupKey overlay k = some v →
        mergesRecursively (lookupKey base k) v = false →
        lookupKey (deep_merge base overlay) k = some v) ∧
    (∀ d : List (String × JsonVal), deep_merge d [] = d) :=
  ⟨fun base overlay k h => deep_merge_lookup_miss overlay base k h,
   fun base overlay k bf uf hnd hb ho => deep_merge_lookup_both_obj overlay base k bf uf hnd hb ho,
   fun base overlay k v hnd ho hm => deep_merge_lookup_overlay_wins overlay base k v hnd ho hm,
   deep_merge_nil⟩

/-- C5 witness: on a concrete nested document and overlay, the key missing
from the overlay keeps its base value, the key at which both hold mappings
merges recursively, the fresh overlay key is introduced, and the empty
overlay is the identity. -/
theorem deep_merge_spec_witness :
    lookupKey (deep_merge w5_base w5_overlay) "a" = lookupKey w5_base "a" ∧
    lookupKey (deep_merge w5_base w5_overlay) "s" =
      some (JsonVal.obj (deep_merge [("x", JsonVal.num 1)] [("y", JsonVal.num 2)])) ∧
    lookupKey (deep_merge w5_base w5_overlay) "n" = some (JsonVal.num 3) ∧
    deep_merge w5_base [] = w5_base :=
  ⟨deep_merge_spec.1 w5_base w5_overlay "a" rfl,
   deep_merge_spec.2.1 w5_base w5_overlay "s" [("x", JsonVal.num 1)] [("y", JsonVal.num 2)]
     (by decide) rfl rfl,
   deep_merge_spec.2.2.1 w5_base w5_overlay "n" (JsonVal.num 3) (by decide) rfl rfl,
   deep_merge_spec.2.2.2 w5_base⟩

/-- C6: the priority score is the sum of the independently-triggered label
increments over case-insensitively matched labels, the empty label set
scores 0, and the label set of `3am-ready` with `bug` scores 110. -/
theorem priority_score_spec :
    (∀ labelNames : List String,
      priorityScore labelNames =
        (if (labelNames.map pyLower).contains "3am-ready" ||
            (labelNames.map pyLower).contains "autonomous-ready" then 100 else 0) +
        (if (labelNames.map pyLower).contains "autonomous-created" then 90 else 0) +
        (if (labelNames.map pyLower).contains "roadmap" ||
            (labelNames.map pyLower).contains "backlog" then 50 else 0) +
        (if (labelNames.map pyLower).contains "quick-win" ||
            (labelNames.map pyLower).contains "good first issue" then 25 else 0) +
        (if (labelNames.map pyLower).contains "bug" then 10 else 0)) ∧
    priorityScore [] = 0 ∧
    priorityScore ["3am-ready", "bug"] = 110 := by
  refine ⟨fun labelNames => ?_, by decide, by decide⟩
  simp only [priorityScore]
  split_ifs <;> rfl

/-- C3 counterexample: an unfenced oracle reply in which a valid JSON object
is surrounded by prose fails the decode (`json.loads` of the whole text
raises, whereas slicing from the first opening brace through the last
closing brace — the behaviour the claim describes — would decode the
object), and the reply indeed carries no fence. -/
theorem structured_response_prose_counterexample :
    structured_response_parse
      "Here is the solution:\n\x7b\"analysis\": \"ok\"\x7d\nLet me know if it helps." =
      none ∧
    (specBroadBraceSlice
      "Here is the solution:\n\x7b\"analysis\": \"ok\"\x7d\nLet me know if it helps.").bind
        jsonParse = some (JsonVal.obj [("analysis", JsonVal.str "ok")]) ∧
    listStartsWith fenceMark.data
      (pyStrip "Here is the solution:\n\x7b\"analysis\": \"ok\"\x7d\nLet me know if it helps.").data =
      false :=
  ⟨rfl, rfl, rfl⟩

/-- C3 (amended): for an unfenced reply the parsing step decodes the entire
stripped response text — it performs no first-brace-to-last-brace
extraction, so surrounding prose fails the generation attempt instead of
being tolerated. -/
theorem structured_response_no_brace_extraction (raw : String)
    (h : listStartsWith fenceMark.data (pyStrip raw).data = false) :
    structured_response_parse raw = jsonParse (pyStrip raw) := by
  unfold structured_response_parse stripFences
  simp [h]

/-- C3 witness: a reply that is exactly a JSON object carries no fence and
is decoded as the whole stripped text. -/
theorem structured_response_no_brace_extraction_witness :
    listStartsWith fenceMark.data (pyStrip "\x7b\"a\": 1\x7d").data = false ∧
    structured_response_parse "\x7b\"a\": 1\x7d" = jsonParse (pyStrip "\x7b\"a\": 1\x7d") :=
  ⟨rfl, structured_response_no_brace_extraction _ rfl⟩

/-- C1: on an existing `package.json` and a partial-overlay modify ChangeOp,
`_apply_changes` — the function the orchestrator actually calls — replaces
the file's full content with the overlay snippet verbatim (losing the
`name` and `version` keys), while the never-invoked
`_apply_modification_smart` would have routed the change through the merge
engine and produced the deep-merged document. -/
theorem apply_changes_modify_replaces_config :
    fsRead (apply_changes c1_fs [c1_change]) "package.json" = some c1_change.content ∧
    fsRead (apply_modification_smart c1_fs c1_change) "package.json" =
      some "\x7b\n  \"name\": \"app\",\n  \"version\": \"1.0.0\",\n  \"scripts\": \x7b\n    \"test\": \"vitest\"\n  \x7d\n\x7d\n" := by
  constructor
  · rfl
  · have hm : deep_merge [("name", JsonVal.str "app"), ("version", JsonVal.str "1.0.0")]
        [("scripts", JsonVal.obj [("test", JsonVal.str "vitest")])] =
        [("name", JsonVal.str "app"), ("version", JsonVal.str "1.0.0"),
         ("scripts", JsonVal.obj [("test", JsonVal.str "vitest")])] := by
      rw [deep_merge_cons, deep_merge_nil,
        show mergeVal
            (lookupKey [("name", JsonVal.str "app"), ("version", JsonVal.str "1.0.0")]
              "scripts")
            (JsonVal.obj [("test", JsonVal.str "vitest")]) =
          JsonVal.obj [("test", JsonVal.str "vitest")] from mergeVal_not_rec _ _ rfl]
      rfl
    calc fsRead (apply_modification_smart c1_fs c1_change) "package.json"
        = some (dumps 74 (JsonVal.obj (deep_merge
            [("name", JsonVal.str "app"), ("version", JsonVal.str "1.0.0")]
            [("scripts", JsonVal.obj [("test", JsonVal.str "vitest")])])) ++ "\n") := rfl
      _ = _ := by rw [hm]; rfl

/-- C7: whenever the top-5 shortlist contains an item labeled
`autonomous-created` (case-insensitively), selection returns such an item
and its result does not depend on the oracle reply at all. -/
theorem select_autonomous_created_oracle_independent
    (replyA replyB : Option String) (issues : List Issue)
    (h : (shortlist issues).any isAutonomousCreatedB = true) :
    select_priority_issue replyA issues = select_priority_issue replyB issues ∧
    ∃ i, select_priority_issue replyA issues = some i ∧ isAutonomousCreatedB i = true := by
  have hemp : (suitableIssues issues).isEmpty = false := by
    cases hs : suitableIssues issues with
    | nil =>
      rw [shortlist_eq_nil_of_suitable_nil hs] at h
      exact absurd h (by simp)
    | cons a l => rfl
  obtain ⟨i, hi, hp⟩ := List.any_eq_true.mp h
  cases hf : (shortlist issues).find? isAutonomousCreatedB with
  | none => exact absurd hp (by simpa using List.find?_eq_none.mp hf i hi)
  | some j =>
    have hj := List.find?_some hf
    refine ⟨?_, j, ?_, hj⟩
    · simp [select_priority_issue, hemp, hf]
    · simp [select_priority_issue, hemp, hf]

/-- C7 witness: with a single autonomous-created issue, the selection result
is the same for an oracle that answers an unrelated number and an oracle
whose call raises. -/
theorem select_autonomous_created_oracle_independent_witness :
    select_priority_issue (some "999") [⟨7, ["autonomous-created"]⟩] =
      select_priority_issue none [⟨7, ["autonomous-created"]⟩] :=
  (select_autonomous_created_oracle_independent (some "999") none
    [⟨7, ["autonomous-created"]⟩] rfl).1

/-- C8 counterexample: with the shortlist `[issue 1 (3am-ready, score 100),
issue 2 (autonomous-created, score 90)]` and an oracle whose call raises,
selection returns issue 2 — an `autonomous-created` item — not the
rank-0 item issue 1 that the claim requires. -/
theorem select_oracle_fallback_counterexample :
    select_priority_issue none [⟨1, ["3am-ready"]⟩, ⟨2, ["autonomous-created"]⟩] =
      some ⟨2, ["autonomous-created"]⟩ ∧
    (shortlist [⟨1, ["3am-ready"]⟩, ⟨2, ["autonomous-created"]⟩]).head? =
      some ⟨1, ["3am-ready"]⟩ ∧
    (⟨2, ["autonomous-created"]⟩ : Issue) ≠ ⟨1, ["3am-ready"]⟩ :=
  ⟨rfl, rfl, by decide⟩

/-- C8 (amended): for every non-empty shortlist none of whose items carries
`autonomous-created`, if the oracle call raises, or its reply contains no
digits, or the parsed number matches no shortlisted issue, selection
returns the shortlist's rank-0 item and never returns `none`. -/
theorem select_oracle_fallback_amended
    (reply : Option String) (issues : List Issue)
    (hne : shortlist issues ≠ [])
    (hnac : ∀ i ∈ shortlist issues, isAutonomousCreatedB i = false)
    (hmis : reply = none ∨
      (∃ r, reply = some r ∧ firstIntToken (pyStrip r) = none) ∨
      (∃ r n, reply = some r ∧ firstIntToken (pyStrip r) = some n ∧
        ∀ i ∈ shortlist issues, i.number ≠ n)) :
    select_priority_issue reply issues = (shortlist issues).head? ∧
    select_priority_issue reply issues ≠ none := by
  have hemp : (suitableIssues issues).isEmpty = false := by
    cases hs : suitableIssues issues with
    | nil => exact absurd (shortlist_eq_nil_of_suitable_nil hs) hne
    | cons a l => rfl
  have hf : (shortlist issues).find? isAutonomousCreatedB = none :=
    List.find?_eq_none.mpr (fun i hi => by simp [hnac i hi])
  obtain ⟨a, ha⟩ : ∃ a, (shortlist issues).head? = some a := by
    cases hs : shortlist issues with
    | nil => exact absurd hs hne
    | cons a l => exact ⟨a, rfl⟩
  have main : select_priority_issue reply issues = (shortlist issues).head? := by
    rcases hmis with h0 | ⟨r, hr, hfi⟩ | ⟨r, n, hr, hfi, hall⟩
    · subst h0
      simp [select_priority_issue, hemp, hf]
    · subst hr
      simp [select_priority_issue, hemp, hf, hfi]
    · subst hr
      have hfind : (shortlist issues).find? (fun i => i.number == n) = none :=
        List.find?_eq_none.mpr (fun i hi => by simp [hall i hi])
      simp [select_priority_issue, hemp, hf, hfi, hfind]
  refine ⟨main, ?_⟩
  rw [main, ha]
  simp

/-- C8 witness: three suitable issues and a digit-free oracle reply — the
selection returns the head of the shortlist. -/
theorem select_oracle_fallback_amended_witness :
    select_priority_issue (some "no thanks")
      [⟨1, ["bug"]⟩, ⟨2, ["roadmap"]⟩, ⟨3, []⟩] =
      (shortlist [⟨1, ["bug"]⟩, ⟨2, ["roadmap"]⟩, ⟨3, []⟩]).head? :=
  (select_oracle_fallback_amended (some "no thanks")
    [⟨1, ["bug"]⟩, ⟨2, ["roadmap"]⟩, ⟨3, []⟩]
    (by decide) (by decide)
    (Or.inr (Or.inl ⟨"no thanks", rfl, rfl⟩))).1

/-- C9: the issue synthesizer creates nothing — returning `None` — whenever
the oracle reply fails to parse as structured data, carries the explicit
no-suitable-task status, is missing a truthy title or body, reports low
confidence, or reports complex estimated complexity. -/
theorem synthesizer_rejection_rules :
    (∀ text, structured_response_parse text = none →
      create_issue_from_backlog (some text) = none) ∧
    (∀ text fields, structured_response_parse text = some (JsonVal.obj fields) →
      isStrVal (lookupKey fields "status") "no_suitable_task" = true →
      create_issue_from_backlog (some text) = none) ∧
    (∀ text fields, structured_response_parse text = some (JsonVal.obj fields) →
      (pyTruthy (lookupKey fields "title") = false ∨
        pyTruthy (lookupKey fields "body") = false) →
      create_issue_from_backlog (some text) = none) ∧
    (∀ text fields, structured_response_parse text = some (JsonVal.obj fields) →
      isStrVal (lookupKey fields "confidence") "low" = true →
      create_issue_from_backlog (some text) = none) ∧
    (∀ text fields, structured_response_parse text = some (JsonVal.obj fields) →
      isStrVal (lookupKey fields "estimated_complexity") "complex" = true →
      create_issue_from_backlog (some text) = none) := by
  refine ⟨?_, ?_, ?_, ?_, ?_⟩
  · intro text h
    simp [create_issue_from_backlog, h]
  · intro text fields h hs
    simp only [create_issue_from_backlog, h]
    split_ifs
    simp_all
  · intro text fields h ht
    simp only [create_issue_from_backlog, h]
    split_ifs <;> simp_all
  · intro text fields h hc
    simp only [create_issue_from_backlog, h]
    split_ifs <;> simp_all
  · intro text fields h hx
    simp only [create_issue_from_backlog, h]
    split_ifs <;> simp_all

/-- C9 witness: one concrete rejected reply per rejection rule. -/
theorem synthesizer_rejection_rules_witness :
    create_issue_from_backlog (some "not a structured reply") = none ∧
    create_issue_from_backlog
      (some "\x7b\"status\": \"no_suitable_task\", \"reason\": \"nothing concrete\"\x7d") =
      none ∧
    create_issue_from_backlog (some "\x7b\"title\": \"\", \"body\": \"B\"\x7d") = none ∧
    create_issue_from_backlog
      (some "\x7b\"title\": \"T\", \"body\": \"B\", \"confidence\": \"low\"\x7d") = none ∧
    create_issue_from_backlog
      (some "\x7b\"title\": \"T\", \"body\": \"B\", \"confidence\": \"high\", \"estimated_complexity\": \"complex\"\x7d") =
      none :=
  ⟨synthesizer_rejection_rules.1 _ rfl,
   synthesizer_rejection_rules.2.1 _
     [("status", JsonVal.str "no_suitable_task"), ("reason", JsonVal.str "nothing concrete")]
     rfl rfl,
   synthesizer_rejection_rules.2.2.1 _
     [("title", JsonVal.str ""), ("body", JsonVal.str "B")] rfl (Or.inl rfl),
   synthesizer_rejection_rules.2.2.2.1 _
     [("title", JsonVal.str "T"), ("body", JsonVal.str "B"), ("confidence", JsonVal.str "low")]
     rfl rfl,
   synthesizer_rejection_rules.2.2.2.2 _
     [("title", JsonVal.str "T"), ("body", JsonVal.str "B"), ("confidence", JsonVal.str "high"),
      ("estimated_complexity", JsonVal.str "complex")] rfl rfl⟩

/-- C10: issue selection is a function of the first 15 input issues only,
and whatever it returns is one of those first 15 — an item at position 16
or later is never shortlisted or selected regardless of its labels. -/
theorem select_considers_first_fifteen (reply : Option String) (issues : List Issue) :
    select_priority_issue reply issues = select_priority_issue reply (issues.take 15) ∧
    ∀ i, select_priority_issue reply issues = some i → i ∈ issues.take 15 := by
  have hsu : suitableIssues (issues.take 15) = suitableIssues issues := by
    simp [suitableIssues, List.take_take]
  constructor
  · simp only [select_priority_issue, shortlist, hsu]
  · intro i h
    exact shortlist_subset (select_mem h)

/-- C10 witness: on sixteen issues whose only labeled item — scoring 100 —
sits at position 16, selection picks the first (score-0) issue, agrees with
selection over the first fifteen issues only, and its pick lies in the
first fifteen. -/
theorem select_considers_first_fifteen_witness :
    select_priority_issue none ex16 = select_priority_issue none (ex16.take 15) ∧
    (⟨1, []⟩ : Issue) ∈ ex16.take 15 :=
  ⟨(select_considers_first_fifteen none ex16).1,
   (select_considers_first_fifteen none ex16).2 ⟨1, []⟩ rfl⟩
